import Mathlib

/-!
Shallow embedding of the alert-messaging relay (`src/main.py`).

The subscriber store is the file `users.txt`, modelled as its list of
physical lines (`List Str`), each line a Python string modelled as a
`List Char`.  `read_user_ids`, `save_user_id`, `remove_user_id`,
`broadcast_message` and the webhook handlers are translated below
directly from the source.  Python strings are `List Char`; `str.strip`
is `pyStrip` (ASCII whitespace, which covers every character the
repository's data can contain); writing `uid + "\n"` to the line file
appends `splitLines uid`, since an identifier containing a newline
produces several physical lines.
-/

namespace AlertMessaging

/-- A Python string, modelled as its list of characters. -/
abbrev Str := List Char

/-- The ASCII whitespace characters removed by Python `str.strip()`. -/
def isPySpace (c : Char) : Bool :=
  c == ' ' || c == '\t' || c == '\n' || c == '\r' || c == '\x0b' || c == '\x0c'

/-- Python `s.strip()`: drop whitespace from both ends. -/
def pyStrip (s : Str) : Str :=
  ((s.dropWhile isPySpace).reverse.dropWhile isPySpace).reverse

/-- Python `s.lower()` (ASCII case folding; the phrases matched by the
router are ASCII or Thai, and Thai has no case). -/
def pyLower (s : Str) : Str := s.map Char.toLower

/-- The physical lines produced by appending the text `s ++ "\n"` to a
line-oriented file: `s` is split at each newline character.  A string
without `'\n'` yields exactly one line. -/
def splitLines : Str → List Str
  | [] => [[]]
  | c :: cs =>
    if c = '\n' then [] :: splitLines cs
    else
      match splitLines cs with
      | [] => [[c]]
      | l :: ls => (c :: l) :: ls

/-- `read_user_ids` (main.py lines 61-70): strip every line of the file
and keep the non-empty results. -/
def read_user_ids (file : List Str) : List Str :=
  (file.map pyStrip).filter (fun s => !s.isEmpty)

/-- `save_user_id` (main.py lines 72-87): read the current membership;
if `user_id` is not among the stripped entries, append `user_id ++ "\n"`
to the file and return `True`, else return `False`.  The result pairs
the returned boolean with the file contents after the call. -/
def save_user_id (file : List Str) (user_id : Str) : Bool × List Str :=
  let existing_users := read_user_ids file
  if user_id ∉ existing_users then (true, file ++ splitLines user_id)
  else (false, file)

/-- `remove_user_id` (main.py lines 89-105): read the membership; if
`user_id` is present, rewrite the whole file with the remaining entries
(one per line, first occurrence of `user_id` removed, matching Python
`list.remove`) and return `True`, else return `False`. -/
def remove_user_id (file : List Str) (user_id : Str) : Bool × List Str :=
  let users := read_user_ids file
  if user_id ∈ users then (true, users.erase user_id)
  else (false, file)

/-- `len(read_user_ids())`, the count served by `/` and `/users/count`. -/
def count_users (file : List Str) : Nat :=
  (read_user_ids file).length

/-- The backing storage together with fault-injection flags: `readFails`
models `open(USERS_FILE, "r")`/iteration raising, `writeFails` models
`open(..., "a")`/`open(..., "w")`/`write` raising.  A failed write is
modelled as leaving the lines unchanged. -/
structure FS where
  lines : List Str
  readFails : Bool
  writeFails : Bool
  deriving DecidableEq

/-- `read_user_ids` with its `try/except` (main.py lines 61-70): on a
read error the exception is caught, `logger.error` is called and `[]` is
returned.  The second component records whether an error was logged. -/
def read_user_ids_fs (fs : FS) : List Str × Bool :=
  if fs.readFails then ([], true)
  else (read_user_ids fs.lines, false)

/-- `save_user_id` with its `try/except` (main.py lines 72-87): the
inner read catches its own errors (returning `[]`), and a failing append
is caught, logged, and yields `False`.  Result: returned boolean, the
storage after the call, and whether an error was logged. -/
def save_user_id_fs (fs : FS) (user_id : Str) : Bool × FS × Bool :=
  let existing_users := (read_user_ids_fs fs).1
  if user_id ∉ existing_users then
    if fs.writeFails then (false, fs, true)
    else (true, ⟨fs.lines ++ splitLines user_id, fs.readFails, fs.writeFails⟩, false)
  else (false, fs, false)

/-- `remove_user_id` with its `try/except` (main.py lines 89-105): a
failing rewrite is caught, logged, and yields `False`. -/
def remove_user_id_fs (fs : FS) (user_id : Str) : Bool × FS × Bool :=
  let users := (read_user_ids_fs fs).1
  if user_id ∈ users then
    if fs.writeFails then (false, fs, true)
    else (true, ⟨users.erase user_id, fs.readFails, fs.writeFails⟩, false)
  else (false, fs, false)

/-- The JSON bodies the `/broadcast` endpoint can produce: an
`HTTPException` with a status code, the no-users message
(`\x7b"message": "No users to send message to", "total_users": 0\x7d`),
or the completed report with its four numeric/list fields. -/
inductive BResp where
  | httpError (status : Nat)
  | noUsers
  | completed (total_users success_count failed_count : Nat) (failed_users : List Str)
  deriving DecidableEq

/-- The `for user_id in user_ids` loop of `broadcast_message` (main.py
lines 194-198): tally successful pushes and collect failed identifiers
in encounter order.  `push uid text` is the outcome the transport
(`send_push_message`, lines 123-137, which catches its own exceptions
and returns a boolean) reports for that call. -/
def broadcastLoop (push : Str → Str → Bool) (text : Str) : List Str → Nat × List Str
  | [] => (0, [])
  | user_id :: rest =>
    let r := broadcastLoop push text rest
    if push user_id text then (r.1 + 1, r.2)
    else (r.1, user_id :: r.2)

/-- The body of the `try` block of `broadcast_message` (main.py lines
182-206).  `Except.error s` models `raise HTTPException(status_code=s)`.
The second component is the list of identifiers actually pushed to, in
order (one `send_push_message` call per element). -/
def broadcast_try (push : Str → Str → Bool) (file : List Str) (text : Str) :
    Except Nat BResp × List Str :=
  if text.isEmpty then (Except.error 400, [])
  else
    let user_ids := read_user_ids file
    if user_ids.isEmpty then (Except.ok BResp.noUsers, [])
    else
      let r := broadcastLoop push text user_ids
      (Except.ok (BResp.completed user_ids.length r.1 r.2.length r.2), user_ids)

/-- `broadcast_message` (main.py lines 179-210), `try` body plus its
`except Exception` clause.  `HTTPException` subclasses `Exception`, so
the `HTTPException(400)` raised for empty text is itself caught by the
blanket handler, which re-raises `HTTPException(500, "Error
broadcasting: ...")`: every escaping error surfaces as a 500. -/
def broadcast_message (push : Str → Str → Bool) (file : List Str) (text : Str) :
    BResp × List Str :=
  match broadcast_try push file text with
  | (Except.error _, sends) => (BResp.httpError 500, sends)
  | (Except.ok resp, sends) => (resp, sends)

/-- The greeting phrases of `handle_message` (main.py line 285). -/
def greeting_phrases : List Str :=
  ["สวัสดี".toList, "hello".toList, "hi".toList, "หวัดดี".toList]

/-- The thanks phrases of `handle_message` (main.py line 287). -/
def thanks_phrases : List Str :=
  ["ขอบคุณ".toList, "thank you".toList, "thanks".toList]

/-- `hay` starts with `needle` (helper for the substring test below). -/
def leadsWith : Str → Str → Bool
  | [], _ => true
  | _ :: _, [] => false
  | a :: as, b :: bs => a == b && leadsWith as bs

/-- Python's substring test `needle in hay`. -/
def containsSub (needle : Str) : Str → Bool
  | [] => needle.isEmpty
  | c :: rest => leadsWith needle (c :: rest) || containsSub needle rest

/-- What reaches `send_reply_message` at the end of `handle_message`:
either a reply with the composed text, or — when no phrase matched, so
the local `reply_text` was never assigned — the `UnboundLocalError`
Python raises at line 293 when the name is read. -/
inductive ReplyOutcome where
  | sent (reply_token text : Str)
  | unboundLocalError
  deriving DecidableEq

/-- `handle_message` (main.py lines 274-293): strip the message text,
store the sender's identifier, then compose the reply by matching the
lower-cased text against the recognized phrases.  No branch assigns a
default: `reply_text` is modelled as an `Option` that stays `none` when
nothing matches, in which case reading it raises. -/
def handle_message (file : List Str) (reply_token user_id msg_text : Str) :
    List Str × ReplyOutcome :=
  let text := pyStrip msg_text
  let file1 := (save_user_id file user_id).2
  let reply_text : Option Str :=
    if pyLower text ∈ greeting_phrases then
      some ("สวัสดีครับ! 😊\nUser ID: ".toList ++ user_id)
    else if pyLower text ∈ thanks_phrases then
      some "ยินดีครับ! มีอะไรให้ช่วยอีกไหมครับ? 🙏".toList
    else if containsSub ("user id".toList) (pyLower text) then
      some ("User ID ของคุณคือ: ".toList ++ user_id)
    else none
  match reply_text with
  | some t => (file1, ReplyOutcome.sent reply_token t)
  | none => (file1, ReplyOutcome.unboundLocalError)

/-- A store mutation, as performed by the webhook handlers and the
administrative delete: `save_user_id` or `remove_user_id`. -/
inductive StoreOp where
  | save (user_id : Str)
  | remove (user_id : Str)

/-- Apply one store operation to the backing file. -/
def applyOp (file : List Str) : StoreOp → List Str
  | StoreOp.save uid => (save_user_id file uid).2
  | StoreOp.remove uid => (remove_user_id file uid).2

/-- Apply a sequence of store operations, left to right. -/
def applyOps (file : List Str) (ops : List StoreOp) : List Str :=
  ops.foldl applyOp file

/-- An identifier that survives the store's line discipline unchanged:
equal to its own strip and free of newlines.  Real platform identifiers
(`U` followed by hex) are of this shape. -/
def cleanId (s : Str) : Prop := pyStrip s = s ∧ '\n' ∉ s

instance (s : Str) : Decidable (cleanId s) :=
  inferInstanceAs (Decidable (pyStrip s = s ∧ '\n' ∉ s))

/-- Serialized execution of one `save_user_id` call per identifier,
starting from the empty store: the order of the list is the
serialization order imposed by the (spec-required) mutual exclusion. -/
def saveAll (ids : List Str) : List Str :=
  ids.foldl (fun f i => (save_user_id f i).2) []

/-- Spec-side helper (from the spec's words, for comparison with the
store): append `i` unless already present. -/
def insertNew (acc : List Str) (i : Str) : List Str :=
  if i ∈ acc then acc else acc ++ [i]

/-- Spec-side expected store contents (modelled from the spec's words
"the same set of identifiers, in the order they were appended"): the
identifiers in first-appearance order. -/
def appendedOrder (start : List Str) (ids : List Str) : List Str :=
  ids.foldl insertNew start

/-! ### Basic facts about `pyStrip`, `splitLines` and `read_user_ids` -/

theorem dropWhile_dropWhile_eq (p : Char → Bool) (l : List Char) :
    (l.dropWhile p).dropWhile p = l.dropWhile p := by
  induction l with
  | nil => rfl
  | cons c cs ih =>
    cases hp : p c with
    | false => simp [List.dropWhile_cons, hp]
    | true => simpa [List.dropWhile_cons, hp] using ih

theorem head_dropWhile_false (p : Char → Bool) (l : List Char) {c : Char} {cs : List Char}
    (h : l.dropWhile p = c :: cs) : p c = false := by
  induction l with
  | nil => simp [List.dropWhile] at h
  | cons a as ih =>
    rw [List.dropWhile_cons] at h
    cases hp : p a with
    | false =>
      rw [hp] at h
      simp at h
      rcases h with ⟨h1, h2⟩
      subst h1
      exact hp
    | true =>
      rw [hp] at h
      simp at h
      exact ih h

theorem dropWhile_suffix_ex (p : Char → Bool) (l : List Char) :
    ∃ t, t ++ l.dropWhile p = l := by
  induction l with
  | nil => exact ⟨[], rfl⟩
  | cons a as ih =>
    cases hp : p a with
    | false => exact ⟨[], by simp [List.dropWhile_cons, hp]⟩
    | true =>
      obtain ⟨t, ht⟩ := ih
      exact ⟨a :: t, by simp [List.dropWhile_cons, hp, ht]⟩

theorem pyStrip_head_false {u : Str} {c : Char} {t : Str}
    (hs : pyStrip u = c :: t) : isPySpace c = false := by
  obtain ⟨w, hw⟩ := dropWhile_suffix_ex isPySpace (u.dropWhile isPySpace).reverse
  have h2 := congrArg List.reverse hw
  rw [List.reverse_append, List.reverse_reverse] at h2
  have hb : pyStrip u = ((u.dropWhile isPySpace).reverse.dropWhile isPySpace).reverse := rfl
  rw [← hb, hs] at h2
  have hd := dropWhile_dropWhile_eq isPySpace u
  rw [← h2] at hd
  rw [List.cons_append] at hd
  exact head_dropWhile_false isPySpace _ hd

theorem pyStrip_dropWhile (u : Str) : (pyStrip u).dropWhile isPySpace = pyStrip u := by
  cases hs : pyStrip u with
  | nil => rfl
  | cons c t =>
    have hc := pyStrip_head_false hs
    simp [List.dropWhile_cons, hc]

theorem pyStrip_idem (s : Str) : pyStrip (pyStrip s) = pyStrip s := by
  show (((pyStrip s).dropWhile isPySpace).reverse.dropWhile isPySpace).reverse = pyStrip s
  rw [pyStrip_dropWhile]
  have hrev : (pyStrip s).reverse = (s.dropWhile isPySpace).reverse.dropWhile isPySpace := by
    show (((s.dropWhile isPySpace).reverse.dropWhile isPySpace).reverse).reverse = _
    rw [List.reverse_reverse]
  rw [hrev, dropWhile_dropWhile_eq]
  rfl

theorem dropWhile_eq_nil_iff_all (p : Char → Bool) (l : List Char) :
    l.dropWhile p = [] ↔ ∀ c ∈ l, p c = true := by
  induction l with
  | nil => simp
  | cons a as ih =>
    cases hp : p a with
    | false => simp [List.dropWhile_cons, hp]
    | true => simp [List.dropWhile_cons, hp, ih]

theorem mem_takeWhile_pred (p : Char → Bool) (l : List Char) (c : Char)
    (h : c ∈ l.takeWhile p) : p c = true := by
  induction l with
  | nil => simp [List.takeWhile] at h
  | cons a as ih =>
    rw [List.takeWhile_cons] at h
    cases hp : p a with
    | false =>
      rw [hp] at h
      simp at h
    | true =>
      rw [hp] at h
      simp at h
      rcases h with rfl | h
      · exact hp
      · exact ih h

theorem pyStrip_eq_nil_iff (s : Str) :
    pyStrip s = [] ↔ ∀ c ∈ s, isPySpace c = true := by
  constructor
  · intro h c hc
    have hb : (s.dropWhile isPySpace).reverse.dropWhile isPySpace = [] := by
      have hb0 : pyStrip s = ((s.dropWhile isPySpace).reverse.dropWhile isPySpace).reverse := rfl
      rw [hb0] at h
      simpa using h
    have hdrop : ∀ d ∈ s.dropWhile isPySpace, isPySpace d = true := by
      intro d hd
      exact (dropWhile_eq_nil_iff_all _ _).1 hb d (List.mem_reverse.2 hd)
    have hsplit := List.takeWhile_append_dropWhile (p := isPySpace) (l := s)
    rw [← hsplit] at hc
    rcases List.mem_append.1 hc with hc1 | hc2
    · exact mem_takeWhile_pred isPySpace s c hc1
    · exact hdrop c hc2
  · intro h
    have h1 : s.dropWhile isPySpace = [] := (dropWhile_eq_nil_iff_all _ _).2 h
    simp [pyStrip, h1]

theorem read_append (l₁ l₂ : List Str) :
    read_user_ids (l₁ ++ l₂) = read_user_ids l₁ ++ read_user_ids l₂ := by
  simp [read_user_ids]

theorem mem_read_user_ids {s : Str} {file : List Str} (h : s ∈ read_user_ids file) :
    pyStrip s = s ∧ s ≠ [] := by
  unfold read_user_ids at h
  rw [List.mem_filter] at h
  obtain ⟨hm, hne⟩ := h
  rw [List.mem_map] at hm
  obtain ⟨line, hline, rfl⟩ := hm
  refine ⟨pyStrip_idem line, ?_⟩
  intro hnil
  rw [hnil] at hne
  simp at hne

theorem read_fixed {l : List Str} (h : ∀ s ∈ l, pyStrip s = s ∧ s ≠ []) :
    read_user_ids l = l := by
  induction l with
  | nil => rfl
  | cons s rest ih =>
    obtain ⟨h1, h2⟩ := h s (List.mem_cons_self s rest)
    have hr := ih (fun x hx => h x (List.mem_cons_of_mem s hx))
    have hne : (s : Str).isEmpty = false := by
      cases s with
      | nil => exact absurd rfl h2
      | cons a b => rfl
    unfold read_user_ids at hr ⊢
    simp [List.filter_cons, h1, hne, hr]

theorem splitLines_no_newline {s : Str} (h : '\n' ∉ s) : splitLines s = [s] := by
  induction s with
  | nil => rfl
  | cons c cs ih =>
    have hc : ¬ c = '\n' := fun e => h (by rw [e]; exact List.mem_cons_self _ _)
    have hrest := ih (fun m => h (List.mem_cons_of_mem c m))
    simp [splitLines, hc, hrest]

theorem mem_of_mem_splitLines {c : Char} {piece s : Str}
    (hp : piece ∈ splitLines s) (hc : c ∈ piece) : c ∈ s := by
  induction s generalizing piece with
  | nil =>
    simp [splitLines] at hp
    subst hp
    simp at hc
  | cons a as ih =>
    by_cases ha : a = '\n'
    · subst ha
      simp [splitLines] at hp
      rcases hp with rfl | hp
      · simp at hc
      · exact List.mem_cons_of_mem _ (ih hp hc)
    · cases hsl : splitLines as with
      | nil =>
        have heq : splitLines (a :: as) = [[a]] := by simp [splitLines, ha, hsl]
        rw [heq] at hp
        simp at hp
        subst hp
        simp at hc
        subst hc
        exact List.mem_cons_self _ _
      | cons l ls =>
        have heq : splitLines (a :: as) = (a :: l) :: ls := by simp [splitLines, ha, hsl]
        rw [heq] at hp
        rcases List.mem_cons.1 hp with rfl | hp2
        · rcases List.mem_cons.1 hc with rfl | hc2
          · exact List.mem_cons_self _ _
          · refine List.mem_cons_of_mem _ (ih ?_ hc2)
            rw [hsl]
            exact List.mem_cons_self _ _
        · refine List.mem_cons_of_mem _ (ih ?_ hc)
          rw [hsl]
          exact List.mem_cons_of_mem _ hp2

theorem read_splitLines_allspace {s : Str} (h : ∀ c ∈ s, isPySpace c = true) :
    read_user_ids (splitLines s) = [] := by
  unfold read_user_ids
  rw [List.filter_eq_nil_iff]
  intro x hx
  rw [List.mem_map] at hx
  obtain ⟨piece, hpm, rfl⟩ := hx
  have hps : pyStrip piece = [] :=
    (pyStrip_eq_nil_iff piece).2 (fun c hc => h c (mem_of_mem_splitLines hpm hc))
  rw [hps]
  simp

/-! ### Step lemmas for the store operations -/

theorem save_user_id_fst (file : List Str) (uid : Str) :
    (save_user_id file uid).1 = true ↔ uid ∉ read_user_ids file := by
  unfold save_user_id
  by_cases hm : uid ∈ read_user_ids file <;> simp [hm]

theorem save_user_id_read {file : List Str} {uid : Str}
    (h1 : pyStrip uid = uid) (h2 : '\n' ∉ uid) :
    read_user_ids (save_user_id file uid).2 =
      if uid ∈ read_user_ids file ∨ uid = [] then read_user_ids file
      else read_user_ids file ++ [uid] := by
  unfold save_user_id
  by_cases hm : uid ∈ read_user_ids file
  · simp [hm]
  · simp only [hm, not_false_iff, if_true, false_or]
    rw [read_append]
    by_cases he : uid = []
    · subst he
      have hnilread : read_user_ids (splitLines []) = [] := by decide
      rw [hnilread]
      simp
    · have hone : splitLines uid = [uid] := splitLines_no_newline h2
      have hread : read_user_ids [uid] = [uid] :=
        read_fixed (by intro s hs; rw [List.mem_singleton] at hs; subst hs; exact ⟨h1, he⟩)
      rw [hone, hread]
      simp [he]

theorem remove_user_id_read (file : List Str) (uid : Str) :
    read_user_ids (remove_user_id file uid).2 =
      if uid ∈ read_user_ids file then (read_user_ids file).erase uid
      else read_user_ids file := by
  unfold remove_user_id
  by_cases hm : uid ∈ read_user_ids file
  · simp only [hm, if_true]
    exact read_fixed (fun s hs => mem_read_user_ids (List.mem_of_mem_erase hs))
  · simp [hm]

theorem save_user_id_mem {f : List Str} {x : Str} (h : x ∈ read_user_ids f) :
    save_user_id f x = (false, f) := by
  unfold save_user_id
  simp [h]

theorem save_user_id_not_mem {f : List Str} {x : Str} (h : x ∉ read_user_ids f) :
    save_user_id f x = (true, f ++ splitLines x) := by
  unfold save_user_id
  simp [h]

theorem applyOps_cons (file : List Str) (op : StoreOp) (rest : List StoreOp) :
    applyOps file (op :: rest) = applyOps (applyOp file op) rest := rfl

/-- Holds of a store operation whose argument keeps its line shape:
every `save` argument is stripped and newline-free (removals are
unconstrained). -/
def opClean : StoreOp → Prop
  | StoreOp.save uid => cleanId uid
  | StoreOp.remove _ => True

instance (op : StoreOp) : Decidable (opClean op) :=
  match op with
  | StoreOp.save uid => inferInstanceAs (Decidable (cleanId uid))
  | StoreOp.remove _ => inferInstanceAs (Decidable True)

/-! ### C1 — duplicate freedom of the store -/

/-- Claim C1, counterexample: starting from the duplicate-free empty
store, `save_user_id "a"` followed by `save_user_id " a"` leaves
`read_user_ids` with the identifier `"a"` twice — the membership test
compares the raw argument against the stripped stored lines, so the
padded `" a"` is appended and then reads back as a second `"a"`. -/
theorem store_ops_nodup_counterexample :
    read_user_ids (applyOps [] [StoreOp.save ['a'], StoreOp.save [' ', 'a']]) =
      [['a'], ['a']] ∧
    ¬ (read_user_ids (applyOps [] [StoreOp.save ['a'], StoreOp.save [' ', 'a']])).Nodup := by
  decide

/-- Claim C1 (amended): for every sequence of `save_user_id` and
`remove_user_id` operations in which each saved identifier is stripped
(equal to its own `pyStrip`) and newline-free, started on a store whose
`read_user_ids` is duplicate-free, the store's list contains no
duplicate identifiers at any point. -/
theorem store_ops_preserve_nodup (file : List Str) (ops : List StoreOp)
    (hfile : (read_user_ids file).Nodup)
    (hops : ∀ op ∈ ops, opClean op) :
    (read_user_ids (applyOps file ops)).Nodup := by
  induction ops generalizing file with
  | nil => exact hfile
  | cons op rest ih =>
    rw [applyOps_cons]
    refine ih _ ?_ (fun o ho => hops o (List.mem_cons_of_mem _ ho))
    cases op with
    | save uid =>
      obtain ⟨h1, h2⟩ := hops (StoreOp.save uid) (List.mem_cons_self _ _)
      show (read_user_ids (save_user_id file uid).2).Nodup
      rw [save_user_id_read h1 h2]
      by_cases hm : uid ∈ read_user_ids file ∨ uid = []
      · simpa [hm] using hfile
      · rw [if_neg hm]
        push_neg at hm
        rw [List.nodup_append]
        refine ⟨hfile, List.nodup_singleton _, ?_⟩
        intro x hx hx2
        rw [List.mem_singleton] at hx2
        subst hx2
        exact hm.1 hx
    | remove uid =>
      show (read_user_ids (remove_user_id file uid).2).Nodup
      rw [remove_user_id_read]
      by_cases hm : uid ∈ read_user_ids file
      · rw [if_pos hm]
        exact hfile.erase uid
      · rw [if_neg hm]
        exact hfile

/-- Witness for `store_ops_preserve_nodup` at a concrete store and
operation sequence. -/
theorem store_ops_preserve_nodup_witness :
    (read_user_ids (applyOps [['a']] [StoreOp.save ['b'], StoreOp.remove ['a']])).Nodup :=
  store_ops_preserve_nodup [['a']] [StoreOp.save ['b'], StoreOp.remove ['a']]
    (by decide) (by decide)

/-! ### C4 — add twice -/

/-- Claim C4, counterexample: the identifier `" a"` is absent from the
empty store, yet both consecutive `save_user_id` calls return `True`
(the appended line reads back stripped, so the raw argument is never
found), and the count rises by 2. -/
theorem save_twice_counterexample :
    ([' ', 'a'] : Str) ∉ read_user_ids [] ∧
    (save_user_id [] [' ', 'a']).1 = true ∧
    (save_user_id (save_user_id [] [' ', 'a']).2 [' ', 'a']).1 = true ∧
    count_users (save_user_id (save_user_id [] [' ', 'a']).2 [' ', 'a']).2 = 2 ∧
    count_users [] = 0 := by
  decide

/-- Claim C4 (amended): for every stripped, non-empty, newline-free
identifier `x` absent from the store, calling `save_user_id` twice
returns `(true, false)`, the second call leaves the file untouched, and
the count rises by exactly 1. -/
theorem save_twice_returns (file : List Str) (x : Str)
    (hc : cleanId x) (hx0 : x ≠ []) (hx : x ∉ read_user_ids file) :
    (save_user_id file x).1 = true ∧
    (save_user_id (save_user_id file x).2 x).1 = false ∧
    (save_user_id (save_user_id file x).2 x).2 = (save_user_id file x).2 ∧
    count_users (save_user_id file x).2 = count_users file + 1 := by
  obtain ⟨h1, h2⟩ := hc
  have hread : read_user_ids (save_user_id file x).2 = read_user_ids file ++ [x] := by
    rw [save_user_id_read h1 h2, if_neg (not_or.mpr ⟨hx, hx0⟩)]
  have hmem : x ∈ read_user_ids (save_user_id file x).2 := by
    rw [hread]
    exact List.mem_append.2 (Or.inr (List.mem_singleton.2 rfl))
  have hsecond := save_user_id_mem hmem
  refine ⟨?_, ?_, ?_, ?_⟩
  · rw [save_user_id_not_mem hx]
  · rw [hsecond]
  · rw [hsecond]
  · unfold count_users
    rw [hread]
    simp

/-- Witness for `save_twice_returns` at the empty store and the
identifier `"a"`. -/
theorem save_twice_returns_witness :
    (save_user_id [] ['a']).1 = true ∧
    (save_user_id (save_user_id [] ['a']).2 ['a']).1 = false ∧
    (save_user_id (save_user_id [] ['a']).2 ['a']).2 = (save_user_id [] ['a']).2 ∧
    count_users (save_user_id [] ['a']).2 = count_users [] + 1 :=
  save_twice_returns [] ['a'] (by decide) (by decide) (by decide)

/-! ### C5 and C9 — serialized adds and the persisted order -/

theorem read_foldl_save (ids : List Str) :
    ∀ file : List Str, (∀ i ∈ ids, cleanId i ∧ i ≠ []) →
      read_user_ids (ids.foldl (fun f i => (save_user_id f i).2) file) =
        appendedOrder (read_user_ids file) ids := by
  induction ids with
  | nil =>
    intro file _
    rfl
  | cons i rest ih =>
    intro file hc
    obtain ⟨⟨h1, h2⟩, h3⟩ := hc i (List.mem_cons_self _ _)
    have hstep : read_user_ids (save_user_id file i).2 = insertNew (read_user_ids file) i := by
      rw [save_user_id_read h1 h2]
      unfold insertNew
      by_cases hm : i ∈ read_user_ids file
      · simp [hm]
      · simp [hm, h3]
    rw [List.foldl_cons, ih _ (fun j hj => hc j (List.mem_cons_of_mem _ hj)), hstep]
    rfl

theorem appendedOrder_disjoint (ids : List Str) :
    ∀ acc : List Str, ids.Nodup → (∀ i ∈ ids, i ∉ acc) →
      appendedOrder acc ids = acc ++ ids := by
  induction ids with
  | nil =>
    intro acc _ _
    simp [appendedOrder]
  | cons i rest ih =>
    intro acc hnd hd
    have hni : i ∉ acc := hd i (List.mem_cons_self _ _)
    have hins : insertNew acc i = acc ++ [i] := by
      unfold insertNew
      rw [if_neg hni]
    have hstep : appendedOrder acc (i :: rest) = appendedOrder (acc ++ [i]) rest := by
      show List.foldl insertNew (insertNew acc i) rest = appendedOrder (acc ++ [i]) rest
      rw [hins]
      rfl
    have hdd : ∀ j ∈ rest, j ∉ acc ++ [i] := by
      intro j hj hmem
      rcases List.mem_append.1 hmem with hA | hB
      · exact hd j (List.mem_cons_of_mem _ hj) hA
      · rw [List.mem_singleton] at hB
        subst hB
        exact (List.nodup_cons.1 hnd).1 hj
    rw [hstep, ih (acc ++ [i]) (List.Nodup.of_cons hnd) hdd]
    simp

/-- Claim C5, counterexample: the two identifiers `"a"` and `" a"` are
distinct, yet their serialized addition to the empty store yields a
list holding `"a"` twice — not those two unique identifiers. -/
theorem serialized_adds_counterexample :
    ([['a'], [' ', 'a']] : List Str).Nodup ∧
    read_user_ids (saveAll [['a'], [' ', 'a']]) = [['a'], ['a']] ∧
    ¬ (read_user_ids (saveAll [['a'], [' ', 'a']])).Nodup := by
  decide

/-- Claim C5 (amended): N `save_user_id` calls for N distinct stripped,
non-empty, newline-free identifiers, serialized in any order (the list
is the serialization order) from the empty store, yield a store listing
exactly those N identifiers — no lost updates. -/
theorem serialized_adds (ids : List Str)
    (hnd : ids.Nodup) (hc : ∀ i ∈ ids, cleanId i ∧ i ≠ []) :
    read_user_ids (saveAll ids) = ids ∧ count_users (saveAll ids) = ids.length := by
  have h1 : read_user_ids (saveAll ids) = appendedOrder [] ids := by
    unfold saveAll
    rw [read_foldl_save ids [] hc]
    rfl
  have h2 : appendedOrder [] ids = ids := by
    have h0 := appendedOrder_disjoint ids [] hnd (fun i _ hmem => by simp at hmem)
    simpa using h0
  refine ⟨by rw [h1, h2], ?_⟩
  unfold count_users
  rw [h1, h2]

/-- Witness for `serialized_adds` at two concrete identifiers. -/
theorem serialized_adds_witness :
    read_user_ids (saveAll [['a'], ['b']]) = [['a'], ['b']] ∧
    count_users (saveAll [['a'], ['b']]) = 2 :=
  serialized_adds [['a'], ['b']] (by decide) (by decide)

/-- Claim C9, counterexample: a store built by adding `" a"` re-reads
as `["a"]`, not the appended identifier `" a"`. -/
theorem roundtrip_counterexample :
    read_user_ids (saveAll [[' ', 'a']]) = [['a']] ∧
    appendedOrder [] [[' ', 'a']] = [[' ', 'a']] ∧
    read_user_ids (saveAll [[' ', 'a']]) ≠ appendedOrder [] [[' ', 'a']] := by
  decide

/-- Claim C9 (amended): a store built by `save_user_id` calls with
stripped, non-empty, newline-free identifiers re-reads from durable
storage (`read_user_ids` is exactly the reload performed after a
restart — the process keeps no in-memory copy) as those identifiers in
the order they were appended (first appearance order). -/
theorem roundtrip_append_order (ids : List Str)
    (hc : ∀ i ∈ ids, cleanId i ∧ i ≠ []) :
    read_user_ids (saveAll ids) = appendedOrder [] ids := by
  unfold saveAll
  rw [read_foldl_save ids [] hc]
  rfl

/-- Witness for `roundtrip_append_order`: adds of `"a"`, `"b"`, `"a"`
re-read as `["a", "b"]`. -/
theorem roundtrip_append_order_witness :
    read_user_ids (saveAll [['a'], ['b'], ['a']]) = appendedOrder [] [['a'], ['b'], ['a']] :=
  roundtrip_append_order [['a'], ['b'], ['a']] (by decide)

/-! ### C10 — whitespace-only identifiers -/

/-- Claim C10: for every identifier consisting only of whitespace
(including the empty string) and every store state, `save_user_id`
returns `True` (so every call does, not just the first), while
`read_user_ids` never contains the identifier and the count never
increases: the appended line is filtered out on every read. -/
theorem whitespace_id_behavior (file : List Str) (uid : Str)
    (h : pyStrip uid = []) :
    (save_user_id file uid).1 = true ∧
    read_user_ids (save_user_id file uid).2 = read_user_ids file ∧
    uid ∉ read_user_ids (save_user_id file uid).2 ∧
    count_users (save_user_id file uid).2 = count_users file := by
  have hnotmem : ∀ f : List Str, uid ∉ read_user_ids f := by
    intro f hm
    obtain ⟨hfix, hne⟩ := mem_read_user_ids hm
    rw [h] at hfix
    exact hne hfix.symm
  have hsave := save_user_id_not_mem (hnotmem file)
  have hread : read_user_ids (save_user_id file uid).2 = read_user_ids file := by
    rw [hsave]
    show read_user_ids (file ++ splitLines uid) = read_user_ids file
    rw [read_append, read_splitLines_allspace ((pyStrip_eq_nil_iff uid).1 h)]
    simp
  refine ⟨by rw [hsave], hread, ?_, ?_⟩
  · rw [hread]
    exact hnotmem file
  · unfold count_users
    rw [hread]

/-- Witness for `whitespace_id_behavior` at the store `["a"]` and the
identifier `" "`. -/
theorem whitespace_id_behavior_witness :
    (save_user_id [['a']] [' ']).1 = true ∧
    read_user_ids (save_user_id [['a']] [' ']).2 = read_user_ids [['a']] ∧
    ([' '] : Str) ∉ read_user_ids (save_user_id [['a']] [' ']).2 ∧
    count_users (save_user_id [['a']] [' ']).2 = count_users [['a']] :=
  whitespace_id_behavior [['a']] [' '] (by decide)

/-! ### C7 and C8 — storage-failure semantics and absent removal -/

/-- Claim C7: no store operation raises: on a failing read,
`read_user_ids` returns `[]` and logs the error; on a failing write,
`save_user_id` and `remove_user_id` return `False` for every argument,
logging the error whenever the write was actually attempted (`u` is an
identifier whose save attempts the write, `v` one whose removal does).
All three modelled operations are total functions: the `try/except`
blocks never let a storage exception escape to the caller. -/
theorem store_ops_degrade (fsr fsw : FS) (u v : Str)
    (hr : fsr.readFails = true) (hw : fsw.writeFails = true)
    (hu : u ∉ (read_user_ids_fs fsw).1) (hv : v ∈ (read_user_ids_fs fsw).1) :
    read_user_ids_fs fsr = ([], true) ∧
    save_user_id_fs fsw u = (false, fsw, true) ∧
    remove_user_id_fs fsw v = (false, fsw, true) ∧
    (save_user_id_fs fsw v).1 = false ∧
    (remove_user_id_fs fsw u).1 = false := by
  refine ⟨?_, ?_, ?_, ?_, ?_⟩
  · unfold read_user_ids_fs
    simp [hr]
  · unfold save_user_id_fs
    simp [hu, hw]
  · unfold remove_user_id_fs
    simp [hv, hw]
  · unfold save_user_id_fs
    simp [hv]
  · unfold remove_user_id_fs
    simp [hu]

/-- Witness for `store_ops_degrade` at a concrete failing storage. -/
theorem store_ops_degrade_witness :
    read_user_ids_fs ⟨[['a']], true, false⟩ = ([], true) ∧
    save_user_id_fs ⟨[['a']], false, true⟩ ['b'] = (false, ⟨[['a']], false, true⟩, true) ∧
    remove_user_id_fs ⟨[['a']], false, true⟩ ['a'] = (false, ⟨[['a']], false, true⟩, true) ∧
    (save_user_id_fs ⟨[['a']], false, true⟩ ['a']).1 = false ∧
    (remove_user_id_fs ⟨[['a']], false, true⟩ ['b']).1 = false :=
  store_ops_degrade ⟨[['a']], true, false⟩ ⟨[['a']], false, true⟩ ['b'] ['a']
    (by decide) (by decide) (by decide) (by decide)

/-- Claim C8: removing an identifier that is not in the store returns
`False` and leaves everything unchanged — the pure model keeps the file
identical, and the fault-injected model shows no write is attempted and
nothing is logged even when the storage is unwritable. -/
theorem remove_absent (file : List Str) (fs : FS) (uid : Str)
    (h : uid ∉ read_user_ids file) (hfs : uid ∉ (read_user_ids_fs fs).1) :
    remove_user_id file uid = (false, file) ∧
    remove_user_id_fs fs uid = (false, fs, false) := by
  constructor
  · unfold remove_user_id
    simp [h]
  · unfold remove_user_id_fs
    simp [hfs]

/-- Witness for `remove_absent` at the store `["a"]` and the absent
identifier `"b"`, with an unwritable storage. -/
theorem remove_absent_witness :
    remove_user_id [['a']] ['b'] = (false, [['a']]) ∧
    remove_user_id_fs ⟨[['a']], false, true⟩ ['b'] = (false, ⟨[['a']], false, true⟩, false) :=
  remove_absent [['a']] ⟨[['a']], false, true⟩ ['b'] (by decide) (by decide)

/-! ### C2 and C3 — broadcast -/

/-- Claim C2: `broadcast_message` with empty text performs zero push
sends — but the caller receives HTTP 500, not the 400 validation error:
the `HTTPException(400, "Message text is required")` raised inside the
`try` block is itself an `Exception`, so the blanket `except` clause
catches it and re-raises `HTTPException(500, "Error broadcasting:
...")`. -/
theorem broadcast_empty_text_500 (push : Str → Str → Bool) (file : List Str) :
    broadcast_message push file [] = (BResp.httpError 500, []) := rfl

theorem broadcastLoop_eq (push : Str → Str → Bool) (text : Str) (ids : List Str) :
    broadcastLoop push text ids =
      (ids.countP (fun u => push u text), ids.filter (fun u => !(push u text))) := by
  induction ids with
  | nil => rfl
  | cons u rest ih =>
    cases hp : push u text with
    | false => simp [broadcastLoop, hp, ih, List.countP_cons, List.filter_cons]
    | true => simp [broadcastLoop, hp, ih, List.countP_cons, List.filter_cons]

/-- Claim C3 (amended): for non-empty text and a snapshot with at least
one identifier, `broadcast_message` pushes exactly once per identifier
of the snapshot (the second component lists the pushed identifiers, in
order) and reports total = snapshot length, success = number of
successful sends, and the failed identifiers in encounter order. -/
theorem broadcast_accounting (push : Str → Str → Bool) (file : List Str) (text : Str)
    (htext : text ≠ []) (husers : read_user_ids file ≠ []) :
    broadcast_message push file text =
      (BResp.completed (read_user_ids file).length
        ((read_user_ids file).countP (fun u => push u text))
        ((read_user_ids file).filter (fun u => !(push u text))).length
        ((read_user_ids file).filter (fun u => !(push u text))),
       read_user_ids file) := by
  have h1 : text.isEmpty = false := by
    cases text with
    | nil => exact absurd rfl htext
    | cons a b => rfl
  have h2 : (read_user_ids file).isEmpty = false := by
    cases hh : read_user_ids file with
    | nil => exact absurd hh husers
    | cons a b => rfl
  unfold broadcast_message broadcast_try
  simp [h1, h2, broadcastLoop_eq]

/-- Claim C3, counterexample: with an empty snapshot (and non-empty
text) the endpoint answers with the distinct no-users message, which
carries no success count and no failed list — not a completed report
with total 0. -/
theorem broadcast_accounting_counterexample :
    broadcast_message (fun _ _ => true) [] ("hi".toList) = (BResp.noUsers, []) ∧
    (broadcast_message (fun _ _ => true) [] ("hi".toList)).1 ≠ BResp.completed 0 0 0 [] := by
  decide

/-- Witness for `broadcast_accounting`: three subscribers of which
exactly `"U2"` fails give total 3, success 2, failed `["U2"]`. -/
theorem broadcast_accounting_witness :
    broadcast_message (fun u _ => !(u == "U2".toList))
      ["U1".toList, "U2".toList, "U3".toList] ("hi".toList) =
      (BResp.completed 3 2 1 ["U2".toList],
       ["U1".toList, "U2".toList, "U3".toList]) := by
  rw [broadcast_accounting _ _ _ (by decide) (by decide)]
  decide

/-! ### C6 — unmatched text leaves the reply unassigned -/

/-- Claim C6: when the stripped, lower-cased message text matches none
of the recognized phrase categories, no branch of `handle_message`
assigns a reply text, so the name is still unbound when the reply send
is reached — there is no fallback reply. -/
theorem unmatched_text_unbound (file : List Str) (reply_token user_id msg_text : Str)
    (h1 : pyLower (pyStrip msg_text) ∉ greeting_phrases)
    (h2 : pyLower (pyStrip msg_text) ∉ thanks_phrases)
    (h3 : containsSub ("user id".toList) (pyLower (pyStrip msg_text)) = false) :
    (handle_message file reply_token user_id msg_text).2 =
      ReplyOutcome.unboundLocalError := by
  have h3x : containsSub ['u', 's', 'e', 'r', ' ', 'i', 'd'] (pyLower (pyStrip msg_text)) =
      false := h3
  unfold handle_message
  simp [h1, h2, h3x]

/-- Witness for `unmatched_text_unbound` at the message `"xyz"`. -/
theorem unmatched_text_unbound_witness :
    (handle_message [] ['t'] ['u'] ("xyz".toList)).2 = ReplyOutcome.unboundLocalError :=
  unmatched_text_unbound [] ['t'] ['u'] ("xyz".toList) (by decide) (by decide) (by decide)

end AlertMessaging
